import Mathlib

/-!
Shallow embedding of the academic-credential-verification client core:
identity derivation (src/lib/utils/crypto.ts, src/lib/solana/address-generation.ts),
the generic retry helper (src/lib/utils/async.ts), the transaction
submission/confirmation engine and attestation verifier
(src/lib/services/BlockchainService.ts), and the NIN service with its
rate limiter and caches (src/lib/services/NINService.ts).

External cryptographic primitives (SHA-256, ed25519 keypair-from-seed with
base58 public key rendering) and external I/O responses (RPC replies, the
token-bucket library's removeTokens result, cache lookups) are passed in as
function parameters; the control flow, branching and data handling around
them are translated from the TypeScript source.
-/

/- ------------------------- src/lib/utils/crypto.ts ------------------------- -/

/-- `generateSeedFromNIN` (crypto.ts lines 40-47): throws when the NIN_SALT
environment variable is unset, otherwise the SHA-256 digest of `nin + salt`.
`sha256` stands for node crypto's digest (a 32-byte buffer, modelled as a
list of bytes). -/
def generateSeedFromNIN (sha256 : String → List Nat) (ninSalt : Option String)
    (nin : String) : Except String (List Nat) :=
  match ninSalt with
  | none => .error "NIN_SALT environment variable is required"
  | some salt => .ok (sha256 (nin ++ salt))

/-- `hashNIN` (crypto.ts lines 7-14): throws when NIN_SALT is unset, otherwise
the hex SHA-256 of `nin + salt`. The function takes a single data argument;
a second argument passed by a caller is dropped by the JavaScript runtime. -/
def cryptoHashNIN (sha256hex : String → String) (ninSalt : Option String)
    (nin : String) : Except String String :=
  match ninSalt with
  | none => .error "NIN_SALT environment variable is required"
  | some salt => .ok (sha256hex (nin ++ salt))

/- ------------------- src/lib/solana/address-generation.ts ------------------ -/

/-- `generateAddressFromNIN` (address-generation.ts lines 8-15):
`Keypair.fromSeed(seed.slice(0, 32)).publicKey.toBase58()` over the NIN seed.
`fromSeedPubBase58` stands for the composition of `Keypair.fromSeed` and
`publicKey.toBase58`. -/
def generateAddressFromNIN (fromSeedPubBase58 : List Nat → String)
    (sha256 : String → List Nat) (ninSalt : Option String)
    (nin : String) : Except String String :=
  (generateSeedFromNIN sha256 ninSalt nin).map
    (fun seed => fromSeedPubBase58 (seed.take 32))

/-- `verifyAddressForNIN` (address-generation.ts lines 29-32): a pure equality
check of the claimed address against a fresh derivation. -/
def verifyAddressForNIN (fromSeedPubBase58 : List Nat → String)
    (sha256 : String → List Nat) (ninSalt : Option String)
    (nin address : String) : Except String Bool :=
  (generateAddressFromNIN fromSeedPubBase58 sha256 ninSalt nin).map
    (fun expected => expected == address)

/- -------------------------- src/lib/utils/async.ts ------------------------- -/

/-- Outcome of a `withRetry` run: the surfaced result, the number of times the
operation was invoked, and the list of back-off delays slept (in ms). -/
structure WithRetryRun (T : Type) where
  result : Except String T
  calls : Nat
  delays : List Nat
deriving Repr

/-- The delay computed at async.ts line 33 for a failure of attempt `n`
(1-indexed): `initialDelayMs * Math.pow(2, attempt - 1)`. -/
def withRetryDelay (initialDelayMs n : Nat) : Nat :=
  initialDelayMs * 2 ^ (n - 1)

/-- The loop body of `withRetry` (async.ts lines 25-39). `op` gives the result
of the `attempt`-th invocation (1-indexed); `remaining` counts the loop
iterations still allowed (so the loop guard `attempt <= maxRetries` holds
exactly while `remaining > 0`); `lastError` is the accumulator of line 25.
A delay is slept only when `attempt < maxRetries` (line 32), i.e. when
`remaining > 1`; after the loop the last error (or the fallback message when
the loop never ran) is thrown. -/
def withRetryGo (op : Nat → Except String T) (initialDelayMs : Nat) :
    (attempt remaining : Nat) → Option String → WithRetryRun T
  | _, 0, lastError =>
    ⟨.error (lastError.getD "Operation failed after maximum retries"), 0, []⟩
  | attempt, r + 1, _ =>
    match op attempt with
    | .ok v => ⟨.ok v, 1, []⟩
    | .error e =>
      if r = 0 then
        ⟨.error e, 1, []⟩
      else
        let d := withRetryDelay initialDelayMs attempt
        let rest := withRetryGo op initialDelayMs (attempt + 1) r (some e)
        ⟨rest.result, rest.calls + 1, d :: rest.delays⟩

/-- `withRetry` (async.ts lines 20-40): attempts run from 1 to `maxRetries`. -/
def withRetry (op : Nat → Except String T) (initialDelayMs maxRetries : Nat) :
    WithRetryRun T :=
  withRetryGo op initialDelayMs 1 maxRetries none

/-- Whether `needle` occurs as a contiguous substring of `hay`. -/
def strContains (needle hay : String) : Bool :=
  (List.range (hay.length + 1)).any
    (fun i => ((hay.data.drop i).take needle.length) == needle.data)

deriving instance DecidableEq for Except

/- -------- src/lib/services/BlockchainService.ts : transaction flow --------- -/

/-- RPC confirmation status values of a signature. -/
inductive ConfStatus
  | processed
  | confirmed
  | finalized
deriving DecidableEq, Repr

/-- One entry of a `getSignatureStatuses` reply: an optional ledger error and
an optional confirmation status. -/
structure SigStatusInfo where
  err : Option String
  confirmationStatus : Option ConfStatus
deriving DecidableEq, Repr

/-- What the network answers during one iteration of the confirmation poll
loop: the `getSignatureStatuses` reply (`.error` when the RPC call throws,
`.ok none` when no status is known yet) and the `getSlot` reply. -/
structure PollObs where
  statuses : Except String (Option SigStatusInfo)
  slot : Except String Nat
deriving Repr

/-- Outcome of `waitForConfirmation`: returned normally, threw
`TransactionFailedError`, or threw `TransactionTimeoutError`. -/
inductive ConfOutcome
  | confirmedOk
  | failedLedger (msg : String)
  | expiredTimeout (msg : String)
deriving DecidableEq, Repr

/-- The polling loop of `waitForConfirmation` (BlockchainService.ts lines
490-524), one tick per iteration (the 1s sleep of line 520). When the status
reply carries a ledger error the loop throws `TransactionFailedError`
(rethrown past the inner catch of line 506); a confirmed/finalized status
returns. The block-height expiry check of lines 511-518 computes its result
inside a `try` whose `catch` ignores every error, so the
`TransactionTimeoutError` thrown at line 514 never escapes: the loop always
continues to the next tick, and only the wall-clock guard of line 492
produces the timeout thrown at line 523 (modelled by `fuel` running out). -/
def wfcGo (obs : Nat → PollObs) (lastValidBlockHeight : Nat) :
    (t fuel : Nat) → ConfOutcome
  | _, 0 => .expiredTimeout "Transaction not confirmed within timeout"
  | t, fuel + 1 =>
    let slotExpiry : Except String Unit :=
      match (obs t).slot with
      | .error e => .error e
      | .ok slot =>
        if slot > lastValidBlockHeight then
          .error "Blockhash expired before confirmation"
        else
          .ok ()
    let cont :=
      match slotExpiry with
      | _ => wfcGo obs lastValidBlockHeight (t + 1) fuel
    match (obs t).statuses with
    | .ok (some info) =>
      match info.err with
      | some e => .failedLedger ("Transaction failed: " ++ e)
      | none =>
        if info.confirmationStatus = some .confirmed
            ∨ info.confirmationStatus = some .finalized then
          .confirmedOk
        else
          cont
    | _ => cont

/-- `waitForConfirmation` with the wall-clock timeout expressed in poll ticks
(`confirmationTimeout / 1000`, default 30). -/
def waitForConfirmation (obs : Nat → PollObs) (lastValidBlockHeight : Nat)
    (timeoutTicks : Nat) : ConfOutcome :=
  wfcGo obs lastValidBlockHeight 0 timeoutTicks

/-- Lifecycle events emitted by `sendTransactionWithRetry`
(BlockchainEvent.TRANSACTION_SENT / TRANSACTION_CONFIRMED /
TRANSACTION_FAILED). No separate expired event exists: a timeout also emits
TRANSACTION_FAILED (line 562). -/
inductive TxEvent
  | sent (sig : String)
  | confirmedEv (sig : String)
  | failedEv (sig : String)
deriving DecidableEq, Repr

/-- The error classes of BlockchainService.ts lines 82-101 plus a generic
constructor for every other thrown value (network throws, signing failures). -/
inductive TxErr
  | transactionFailed (msg : String)
  | transactionTimeout (msg : String)
  | blockchain (msg : String)
  | other (msg : String)
deriving DecidableEq, Repr

/-- `err.message` of a caught value (line 575). -/
def txErrMsg : TxErr → String
  | .transactionFailed m => m
  | .transactionTimeout m => m
  | .blockchain m => m
  | .other m => m

/-- The network's behaviour during one outer attempt: the
`getLatestBlockhash` reply (blockhash and lastValidBlockHeight, or a throw),
the `sendRawTransaction` reply (signature, or a throw — signing and
serialization failures are folded into this channel), and the poll replies
seen by `waitForConfirmation`. -/
structure AttemptEnv where
  blockhash : Except String (String × Nat)
  sendRaw : Except String String
  poll : Nat → PollObs

/-- One iteration of the `for` loop of `sendTransactionWithRetry` (lines
538-564): fetch blockhash, sign, send, emit SENT, wait for confirmation,
emit CONFIRMED on success or FAILED (then rethrow) on any confirmation
error. Returns the result of the `try` body together with the events it
emitted. -/
def attemptOnce (timeoutTicks : Nat) (e : AttemptEnv) :
    Except TxErr (String × String × Nat) × List TxEvent :=
  match e.blockhash with
  | .error m => (.error (.other m), [])
  | .ok (bh, lastValid) =>
    match e.sendRaw with
    | .error m => (.error (.other m), [])
    | .ok sig =>
      match waitForConfirmation e.poll lastValid timeoutTicks with
      | .confirmedOk => (.ok (sig, bh, lastValid), [.sent sig, .confirmedEv sig])
      | .failedLedger m => (.error (.transactionFailed m), [.sent sig, .failedEv sig])
      | .expiredTimeout m => (.error (.transactionTimeout m), [.sent sig, .failedEv sig])

/-- Outcome of a `sendTransactionWithRetry` call: the surfaced result (the
`{signature, blockhash, lastValidBlockHeight}` record or the thrown error),
the emitted lifecycle events in order, the number of loop iterations begun
(outer attempts), and the back-off delays slept between attempts. -/
structure SendTxRun where
  result : Except TxErr (String × String × Nat)
  events : List TxEvent
  attempts : Nat
  delays : List Nat
deriving Repr

/-- The outer retry loop of `sendTransactionWithRetry` (lines 537-579),
`attempt` running from 0 to `retries`. The catch of lines 565-578 rethrows
`TransactionFailedError` and `TransactionTimeoutError` unchanged (line 567);
every other error is retried after `retryDelay * 2^attempt + jitter` ms while
`attempt < retries`, and once attempts are exhausted the last error is
wrapped in a `BlockchainError` carrying its message (line 576). `fuel`
bounds the recursion; the run starts with `fuel = retries + 1`, exactly the
number of loop iterations the source can make, so the fuel-exhausted base
case is the unreachable fall-through of line 581. -/
def sendTxGo (env : Nat → AttemptEnv) (timeoutTicks retryDelay : Nat)
    (jitter : Nat → Nat) (retries : Nat) : (attempt fuel : Nat) → SendTxRun
  | _, 0 => ⟨.error (.blockchain "Failed to send transaction (unknown reason)"), [], 0, []⟩
  | attempt, fuel + 1 =>
    let (res, evs) := attemptOnce timeoutTicks (env attempt)
    match res with
    | .ok v => ⟨.ok v, evs, 1, []⟩
    | .error e =>
      match e with
      | .transactionFailed m => ⟨.error (.transactionFailed m), evs, 1, []⟩
      | .transactionTimeout m => ⟨.error (.transactionTimeout m), evs, 1, []⟩
      | e =>
        if attempt < retries then
          let d := retryDelay * 2 ^ attempt + jitter attempt
          let rest := sendTxGo env timeoutTicks retryDelay jitter retries (attempt + 1) fuel
          ⟨rest.result, evs ++ rest.events, rest.attempts + 1, d :: rest.delays⟩
        else
          ⟨.error (.blockchain ("Failed to send transaction after retries: " ++ txErrMsg e)),
            evs, 1, []⟩

/-- `sendTransactionWithRetry` (lines 529-582). `retries` is
`options.retries ?? maxRetries` (default 5); `jitter a` models
`Math.floor(Math.random() * 500)` for the delay after attempt `a`. -/
def sendTransactionWithRetry (env : Nat → AttemptEnv)
    (timeoutTicks retryDelay : Nat) (jitter : Nat → Nat) (retries : Nat) :
    SendTxRun :=
  sendTxGo env timeoutTicks retryDelay jitter retries 0 (retries + 1)

/-- Checks that an event trace is a sequence of SENT-then-terminal pairs for
matching signatures. -/
def okTrace : List TxEvent → Bool
  | [] => true
  | .sent s :: .confirmedEv s2 :: rest => s == s2 && okTrace rest
  | .sent s :: .failedEv s2 :: rest => s == s2 && okTrace rest
  | _ => false

/- ------- src/lib/services/BlockchainService.ts : attestation checks -------- -/

/-- The fields JSON.parse can deliver for an attestation account
(AttestationAccountData before defaults). Absent/empty identifier strings
are modelled as `""` (both are falsy in the source's truthiness checks);
`timestamp`/`issuer` keys may be missing. -/
structure RawParsed where
  credentialId : String
  studentId : String
  universityId : String
  attestationType : String
  timestamp : Option Nat
  issuer : Option String
deriving DecidableEq, Repr

/-- A parsed attestation record after the defaults of line 622 are applied. -/
structure AttestationAccountData where
  credentialId : String
  studentId : String
  universityId : String
  attestationType : String
  timestamp : Nat
  issuer : String
deriving DecidableEq, Repr

/-- `parseAttestationData` (lines 616-627). `raw = none` stands for an empty
buffer or a JSON.parse throw; the required identifier fields must be truthy
(non-empty); missing `timestamp`/`issuer` default to `Date.now()` and the
wallet public key. A JS timestamp of `0` is falsy, kept as the value `0`. -/
def parseAttestationData (walletPk : String) (now : Nat)
    (raw : Option RawParsed) : Option AttestationAccountData :=
  match raw with
  | none => none
  | some p =>
    if p.credentialId = "" ∨ p.studentId = "" ∨ p.universityId = "" then
      none
    else
      some ⟨p.credentialId, p.studentId, p.universityId, p.attestationType,
        p.timestamp.getD now, p.issuer.getD walletPk⟩

/-- `validateAttestationStructure` (lines 629-637): the identifier fields are
strings by construction; the declared type must be one of the two known
kinds; a truthy (non-zero) timestamp must not lie in the future. -/
def validateAttestationStructure (now : Nat)
    (d : Option AttestationAccountData) : Bool :=
  match d with
  | none => false
  | some data =>
    decide (data.attestationType = "UNIVERSITY_ISSUED"
        ∨ data.attestationType = "GOVERNMENT_ACCREDITED")
    && ! decide (data.timestamp ≠ 0 ∧ data.timestamp > now)

/-- A fetched account: its owner program (base58) and the JSON.parse view of
its data buffer. -/
structure AccountInfo where
  owner : String
  data : Option RawParsed
deriving DecidableEq, Repr

/-- The result object of `verifyAttestation` and `batchVerifyAttestations`. -/
structure VerifyResult where
  isValid : Bool
  data : Option AttestationAccountData := none
  error : Option String := none
deriving DecidableEq, Repr

/-- `verifyAttestation` (lines 639-665). `parsePub` models the `PublicKey`
constructor (`none` = throw on a malformed address); `getAccountInfo` models
the RPC fetch (`.error` = throw, caught by the outer catch of line 660;
`.ok none` = account absent). -/
def verifyAttestation (programId walletPk : String) (now : Nat)
    (parsePub : String → Option String)
    (getAccountInfo : String → Except String (Option AccountInfo))
    (attestationAddress : String) : VerifyResult :=
  if attestationAddress = "" then
    ⟨false, none, some "Invalid attestation address"⟩
  else
    match parsePub attestationAddress with
    | none => ⟨false, none, some "Invalid attestation address format"⟩
    | some pk =>
      match getAccountInfo pk with
      | .error m => ⟨false, none, some ("Verification failed: " ++ m)⟩
      | .ok none => ⟨false, none, some "Attestation account not found"⟩
      | .ok (some acct) =>
        if acct.owner ≠ programId then
          ⟨false, none, some "Attestation account is not owned by expected program"⟩
        else
          let parsed := parseAttestationData walletPk now acct.data
          if validateAttestationStructure now parsed then
            ⟨true, parsed, none⟩
          else
            ⟨false, none, some "Attestation data invalid or malformed"⟩

/-- The per-item guard of `batchVerifyAttestations` (lines 674-681): an
exception thrown while verifying one address is captured inline as an
invalid result carrying the error message. `verify` is the per-address
verification (in the source, `verifyAttestation`, which never throws; the
guard is kept because the code has it). -/
def handleItem (verify : String → Except String VerifyResult)
    (addr : String) : String × VerifyResult :=
  match verify addr with
  | .ok r => (addr, r)
  | .error m => (addr, ⟨false, none, some m⟩)

/-- The chunk loop of `batchVerifyAttestations` (lines 667-690) with
`BATCH_SIZE = 10`: verify the next chunk, merge its results, sleep 500ms
when more input remains (`i + BATCH_SIZE < length`, i.e. the rest is
non-empty). Returns the merged result list (in input order) and the number
of between-chunk pauses. `fuel` only bounds the recursion; each step
consumes at least one address, so `fuel = length` is enough. -/
def batchVerifyGo (verify : String → Except String VerifyResult) :
    (fuel : Nat) → List String → List (String × VerifyResult) × Nat
  | 0, _ => ([], 0)
  | _, [] => ([], 0)
  | fuel + 1, a :: t =>
    let l := a :: t
    let batchResults := (l.take 10).map (handleItem verify)
    let rest := l.drop 10
    let r := batchVerifyGo verify fuel rest
    (batchResults ++ r.1, (if rest.isEmpty then 0 else 1) + r.2)

/-- `batchVerifyAttestations` (lines 667-690). -/
def batchVerifyAttestations (verify : String → Except String VerifyResult)
    (addrs : List String) : List (String × VerifyResult) × Nat :=
  batchVerifyGo verify addrs.length addrs

/- ---------------------- src/lib/services/NINService.ts --------------------- -/

/-- Result of `NINService.validateNIN`. The `cached` flag is attached on a
cache hit (the source forces it past the interface with an `as` cast). -/
structure NINValidationResult where
  isValid : Bool
  error : Option String := none
  countryCode : Option String := none
  cached : Bool := false
deriving DecidableEq, Repr

/-- NIN_PATTERNS.NG: eleven digits. -/
def ninPatternNG (s : String) : Bool :=
  s.length = 11 && s.data.all Char.isDigit

/-- NIN_PATTERNS.US: three digits, optional hyphen, two digits, optional
hyphen, four digits. -/
def ninPatternUS (s : String) : Bool :=
  match s.data with
  | [a, b, c, '-', d, e, '-', f, g, h, i] => [a, b, c, d, e, f, g, h, i].all Char.isDigit
  | [a, b, c, '-', d, e, f, g, h, i] => [a, b, c, d, e, f, g, h, i].all Char.isDigit
  | [a, b, c, d, e, '-', f, g, h, i] => [a, b, c, d, e, f, g, h, i].all Char.isDigit
  | l => l.length = 9 && l.all Char.isDigit

/-- NIN_PATTERNS.UK: two letters, six digits, one letter. -/
def ninPatternUK (s : String) : Bool :=
  match s.data with
  | [a, b, c, d, e, f, g, h, i] =>
    a.isAlpha && b.isAlpha && [c, d, e, f, g, h].all Char.isDigit && i.isAlpha
  | _ => false

/-- NIN_PATTERNS.DEFAULT: 8 to 20 alphanumeric characters. -/
def ninPatternDefault (s : String) : Bool :=
  8 ≤ s.length && s.length ≤ 20 && s.data.all Char.isAlphanum

/-- `NIN_PATTERNS[countryCode] || NIN_PATTERNS.DEFAULT` (NINService.ts lines
17-26, 80). -/
def ninPattern (countryCode : String) (s : String) : Bool :=
  if countryCode = "NG" then ninPatternNG s
  else if countryCode = "US" then ninPatternUS s
  else if countryCode = "UK" then ninPatternUK s
  else ninPatternDefault s

/-- Numeric value of a decimal digit character. -/
def digitVal (c : Char) : Nat :=
  c.toNat - 48

/-- `parseInt` on an all-digit string. -/
def strToNat (s : String) : Nat :=
  s.data.foldl (fun acc c => acc * 10 + digitVal c) 0

/-- `validateNGNIN` (NINService.ts lines 120-143): eleven digits, state code
between 1 and 38, and a weighted checksum over the first ten digits whose
value mod 11 mod 10 must equal the eleventh digit. -/
def validateNGNIN (nin : String) : Bool :=
  if ¬ (nin.length = 11 ∧ nin.data.all Char.isDigit) then
    false
  else
    let stateCode := strToNat (nin.take 3)
    if stateCode < 1 ∨ stateCode > 38 then
      false
    else
      let digits := nin.data.map digitVal
      let checkDigit := (digits.getD 10 0)
      let sum := ((digits.take 10).enum.map (fun p => p.2 * (10 - p.1))).sum
      (sum % 11) % 10 == checkDigit

/-- `NINService.validateNIN` (lines 61-115). `vcache` is the lookup in the
module-level `ninCache` for validation keys; a cache hit is returned with
the `cached` flag. The NIN is trimmed and upper-cased before pattern
matching; country `NG` additionally runs the checksum validation. -/
def validateNIN (vcache : String → Option NINValidationResult)
    (nin countryCode : String) : NINValidationResult :=
  if nin = "" then
    ⟨false, some "NIN is required", some countryCode, false⟩
  else
    match vcache ("nin_validation_" ++ countryCode ++ "_" ++ nin) with
    | some c => { c with cached := true }
    | none =>
      let normalizedNIN := nin.trim.toUpper
      if ¬ ninPattern countryCode normalizedNIN then
        ⟨false, some ("Invalid NIN format for country " ++ countryCode),
          some countryCode, false⟩
      else if countryCode = "NG" ∧ ¬ validateNGNIN normalizedNIN then
        ⟨false, some "Invalid Nigerian NIN format", some countryCode, false⟩
      else
        ⟨true, none, some countryCode, false⟩

/-- `NINService.checkRateLimit` (lines 209-217): `rateLimiter.removeTokens(1)`
either resolves with the remaining token count or rejects; a rejection is
caught and treated as a denial (fail closed), and a resolved call is allowed
only when the remaining count is non-negative. -/
def checkRateLimit (removeTokensResult : Except String Int) : Bool :=
  match removeTokensResult with
  | .ok remaining => decide (remaining ≥ 0)
  | .error _ => false

/-- Result of `NINService.generateAddress`. The `keypair` field of the source
(the full signing keypair, returned alongside the address) is omitted: no
claim mentions it and it carries no extra information beyond the seed. -/
structure NINAddressResult where
  success : Bool
  address : Option String := none
  error : Option String := none
  countryCode : Option String := none
  cached : Bool := false
deriving DecidableEq, Repr

/-- `NINService.generateAddress` (lines 149-205): rate-limit gate, cache
lookup, NIN validation, then the deterministic derivation
`Keypair.fromSeed(generateSeedFromNIN(nin).slice(0, 32))`; a throw (missing
NIN_SALT) is caught and surfaced as a failure result carrying the message. -/
def ninServiceGenerateAddress (fromSeedPubBase58 : List Nat → String)
    (sha256 : String → List Nat) (ninSalt : Option String)
    (limiterResp : Except String Int)
    (vcache : String → Option NINValidationResult)
    (acache : String → Option NINAddressResult)
    (nin countryCode : String) : NINAddressResult :=
  if ¬ checkRateLimit limiterResp then
    ⟨false, none, some "Rate limit exceeded. Please try again later.", none, false⟩
  else
    match acache ("nin_address_" ++ countryCode ++ "_" ++ nin) with
    | some c => { c with cached := true }
    | none =>
      let validation := validateNIN vcache nin countryCode
      if ¬ validation.isValid then
        ⟨false, none, some (validation.error.getD "Invalid NIN format"),
          validation.countryCode, false⟩
      else
        match generateSeedFromNIN sha256 ninSalt nin with
        | .ok seed =>
          ⟨true, some (fromSeedPubBase58 (seed.take 32)), none,
            validation.countryCode, false⟩
        | .error m => ⟨false, none, some m, some countryCode, false⟩

/-- Result of `NINService.verifyAddress`. -/
structure NINVerificationResult where
  isValid : Bool
  error : Option String := none
  countryCode : Option String := none
  cached : Bool := false
deriving DecidableEq, Repr

/-- `NINService.verifyAddress` (lines 222-281): rate-limit gate, cache
lookup, NIN validation, then `verifyAddressForNIN`; a throw is caught and
surfaced as an invalid result carrying the message. -/
def ninServiceVerifyAddress (fromSeedPubBase58 : List Nat → String)
    (sha256 : String → List Nat) (ninSalt : Option String)
    (limiterResp : Except String Int)
    (vcache : String → Option NINValidationResult)
    (vfycache : String → Option NINVerificationResult)
    (nin address countryCode : String) : NINVerificationResult :=
  if ¬ checkRateLimit limiterResp then
    ⟨false, some "Rate limit exceeded. Please try again later.", some countryCode, false⟩
  else
    match vfycache ("nin_verify_" ++ countryCode ++ "_" ++ nin ++ "_" ++ address) with
    | some c => { c with cached := true }
    | none =>
      let validation := validateNIN vcache nin countryCode
      if ¬ validation.isValid then
        ⟨false, validation.error, validation.countryCode, false⟩
      else
        match verifyAddressForNIN fromSeedPubBase58 sha256 ninSalt nin address with
        | .ok b => ⟨b, none, validation.countryCode, false⟩
        | .error m => ⟨false, some m, some countryCode, false⟩

/-- Result of `NINService.hashNIN`. -/
structure NINHashResult where
  success : Bool
  hash : Option String := none
  error : Option String := none
  countryCode : Option String := none
  cached : Bool := false
deriving DecidableEq, Repr

/-- `NINService.hashNIN` (lines 285-343): validation, cache lookup (the cache
key `nin_hash_<country>_<nin>` does not mention `saltRounds`), then the call
`hashNIN(nin, saltRounds)` into crypto.ts — whose `hashNIN` declares a single
parameter, so the JavaScript runtime drops the `saltRounds` argument; it is
therefore not passed to `cryptoHashNIN` here, mirroring the call boundary. A
throw (missing NIN_SALT) is caught and surfaced as a failure result. -/
def ninServiceHashNIN (sha256hex : String → String) (ninSalt : Option String)
    (vcache : String → Option NINValidationResult)
    (hcache : String → Option NINHashResult)
    (nin : String) (saltRounds : Nat) (countryCode : String) : NINHashResult :=
  let validation := validateNIN vcache nin countryCode
  if ¬ validation.isValid then
    ⟨false, none, validation.error, validation.countryCode, false⟩
  else
    match hcache ("nin_hash_" ++ countryCode ++ "_" ++ nin) with
    | some c => { c with cached := true }
    | none =>
      match cryptoHashNIN sha256hex ninSalt nin with
      | .ok h => ⟨true, some h, none, validation.countryCode, false⟩
      | .error m => ⟨false, none, some m, some countryCode, false⟩

/- ------------------------------ helper lemmas ------------------------------ -/

/-- On an operation that fails on every invocation, the `withRetry` loop body
starting at `attempt` with `r ≥ 1` iterations left makes exactly `r` calls,
surfaces the error of the last invocation unwrapped, and sleeps the delays of
all but the last iteration. -/
theorem withRetryGo_allFail {T : Type} (errs : Nat → String) (base : Nat) :
    ∀ (r : Nat), 1 ≤ r → ∀ (attempt : Nat) (lastErr : Option String),
      withRetryGo (fun n => (.error (errs n) : Except String T)) base attempt r lastErr
        = ⟨.error (errs (attempt + r - 1)), r,
            (List.range' attempt (r - 1)).map (fun a => withRetryDelay base a)⟩ := by
  intro r
  induction r with
  | zero => intro h; omega
  | succ r ih =>
    intro _ attempt lastErr
    by_cases hr : r = 0
    · subst hr
      simp [withRetryGo]
    · have ih2 := ih (by omega) (attempt + 1) (some (errs attempt))
      simp only [withRetryGo, hr, if_false, ih2]
      have h1 : attempt + 1 + r - 1 = attempt + (r + 1) - 1 := by omega
      obtain ⟨r2, rfl⟩ : ∃ r2, r = r2 + 1 := ⟨r - 1, by omega⟩
      simp [h1, List.range'_succ]

/-- When `getLatestBlockhash` throws, the attempt fails before anything is
sent: no events, a generic (retryable) error. -/
theorem attemptOnce_blockhashFail (Tt : Nat) (e : AttemptEnv) (m : String)
    (h : e.blockhash = .error m) :
    attemptOnce Tt e = (.error (.other m), []) := by
  simp [attemptOnce, h]

/-- The four possible shapes of one submission attempt: failed before the
send with no events, or SENT followed by exactly one terminal outcome. -/
theorem attemptOnce_shape (Tt : Nat) (e : AttemptEnv) :
    (∃ m, attemptOnce Tt e = (.error (.other m), [])) ∨
    (∃ sig bh lv, attemptOnce Tt e = (.ok (sig, bh, lv), [.sent sig, .confirmedEv sig])) ∨
    (∃ m sig, attemptOnce Tt e = (.error (.transactionFailed m), [.sent sig, .failedEv sig])) ∨
    (∃ m sig, attemptOnce Tt e = (.error (.transactionTimeout m), [.sent sig, .failedEv sig])) := by
  unfold attemptOnce
  cases hb : e.blockhash with
  | error m => exact Or.inl ⟨m, rfl⟩
  | ok p =>
    obtain ⟨bh, lv⟩ := p
    cases hs : e.sendRaw with
    | error m => exact Or.inl ⟨m, rfl⟩
    | ok sig =>
      cases hw : waitForConfirmation e.poll lv Tt with
      | confirmedOk => exact Or.inr (Or.inl ⟨sig, bh, lv, by simp [hw]⟩)
      | failedLedger m => exact Or.inr (Or.inr (Or.inl ⟨m, sig, by simp [hw]⟩))
      | expiredTimeout m => exact Or.inr (Or.inr (Or.inr ⟨m, sig, by simp [hw]⟩))

/-- On a network where every attempt's blockhash fetch throws transiently,
the outer loop body starting at `attempt` with `attempt + f = retries` runs
all `f + 1` remaining iterations, emits nothing, sleeps the exponential
delays, and finally wraps the last error message in a `BlockchainError`. -/
theorem sendTxGo_allTransient (msgs : Nat → String) (env : Nat → AttemptEnv)
    (henv : ∀ a, (env a).blockhash = .error (msgs a))
    (Tt d : Nat) (j : Nat → Nat) (retries : Nat) :
    ∀ (fuel : Nat), 1 ≤ fuel → ∀ (attempt : Nat), attempt + fuel = retries + 1 →
      sendTxGo env Tt d j retries attempt fuel
        = ⟨.error (.blockchain ("Failed to send transaction after retries: " ++ msgs retries)),
            [], fuel, (List.range' attempt (fuel - 1)).map (fun a => d * 2 ^ a + j a)⟩ := by
  intro fuel
  induction fuel with
  | zero => intro h; omega
  | succ fuel ih =>
    intro _ attempt h
    cases Nat.eq_zero_or_pos fuel with
    | inl h0 =>
      subst h0
      have hlt : ¬ attempt < retries := by omega
      have ha : attempt = retries := by omega
      simp only [sendTxGo, attemptOnce_blockhashFail Tt (env attempt) (msgs attempt) (henv attempt),
        hlt, if_false]
      subst ha
      simp [txErrMsg]
    | inr hpos =>
      have hlt : attempt < retries := by omega
      have ih2 := ih hpos (attempt + 1) (by omega)
      simp only [sendTxGo, attemptOnce_blockhashFail Tt (env attempt) (msgs attempt) (henv attempt),
        hlt, if_true, ih2]
      obtain ⟨f2, rfl⟩ : ∃ f2, fuel = f2 + 1 := ⟨fuel - 1, by omega⟩
      simp [List.range'_succ]

/-- A SENT/terminal block in front of a well-formed trace keeps it
well-formed. -/
theorem okTrace_cons_confirmed (s : String) (rest : List TxEvent) :
    okTrace (.sent s :: .confirmedEv s :: rest) = okTrace rest := by
  simp [okTrace]

theorem okTrace_cons_failed (s : String) (rest : List TxEvent) :
    okTrace (.sent s :: .failedEv s :: rest) = okTrace rest := by
  simp [okTrace]

/-- Every trace the outer loop body can emit is a sequence of SENT-then-
terminal pairs. -/
theorem okTrace_sendTxGo (env : Nat → AttemptEnv) (Tt d : Nat) (j : Nat → Nat)
    (retries : Nat) :
    ∀ (fuel attempt : Nat),
      okTrace (sendTxGo env Tt d j retries attempt fuel).events = true := by
  intro fuel
  induction fuel with
  | zero => intro attempt; simp [sendTxGo, okTrace]
  | succ fuel ih =>
    intro attempt
    rcases attemptOnce_shape Tt (env attempt) with ⟨m, hsh⟩ | ⟨sig, bh, lv, hsh⟩
      | ⟨m, sig, hsh⟩ | ⟨m, sig, hsh⟩
    · by_cases hlt : attempt < retries
      · simp only [sendTxGo, hsh, hlt, if_true]
        simpa using ih (attempt + 1)
      · simp [sendTxGo, hsh, hlt, okTrace]
    · simp [sendTxGo, hsh, okTrace]
    · simp [sendTxGo, hsh, okTrace]
    · simp [sendTxGo, hsh, okTrace]

/- ------------------------------ claim theorems ----------------------------- -/

/-- Claim C1: for every NIN (with the salt environment variable set),
`verifyAddressForNIN nin (generateAddressFromNIN nin)` returns true, and for
every distinct NIN whose derived address differs,
`verifyAddressForNIN nin2 (generateAddressFromNIN nin)` returns false;
verification is a pure equality check against a fresh derivation, with no
network access (the embedding is a pure function of the derivation
primitives alone). -/
theorem c1_address_verification_roundtrip (fp : List Nat → String)
    (sha : String → List Nat) (salt nin addr : String)
    (h : generateAddressFromNIN fp sha (some salt) nin = .ok addr) :
    verifyAddressForNIN fp sha (some salt) nin addr = .ok true ∧
    ∀ nin2 addr2, generateAddressFromNIN fp sha (some salt) nin2 = .ok addr2 →
      addr2 ≠ addr →
      verifyAddressForNIN fp sha (some salt) nin2 addr = .ok false := by
  constructor
  · simp [verifyAddressForNIN, h, Except.map]
  · intro nin2 addr2 h2 hne
    simp [verifyAddressForNIN, h2, Except.map, hne]

/-- Witness for C1 at the spec's scenario values: seed "7001234567" and salt
"pepper", with concrete stand-ins for the hash and keypair primitives that
keep the derived addresses of the two NINs distinct. -/
def c1Fp : List Nat → String := fun l => String.mk (l.map Char.ofNat)

def c1Sha : String → List Nat := fun s => s.data.map Char.toNat

theorem c1_address_verification_roundtrip_witness :
    verifyAddressForNIN c1Fp c1Sha (some "pepper") "7001234567" "7001234567pepper"
      = .ok true ∧
    verifyAddressForNIN c1Fp c1Sha (some "pepper") "7001234568" "7001234567pepper"
      = .ok false := by
  have h := c1_address_verification_roundtrip c1Fp c1Sha "pepper" "7001234567"
    "7001234567pepper" (by decide)
  exact ⟨h.1, h.2 "7001234568" "7001234568pepper" (by decide) (by decide)⟩

/-- Claim C2 counterexample: with an operation that always fails with
"boom" and `maxRetries = 3`, `withRetry` surfaces the last error exactly as
thrown — the string "boom" — which is not wrapped and does not mention the
attempt count 3, contrary to the claim that exhaustion surfaces "the last
error wrapped with the attempt count". -/
theorem c2_cex_exhaustion_error_unwrapped :
    (withRetry (fun _ => (.error "boom" : Except String Nat)) 1000 3).result
      = .error "boom" ∧
    strContains "3" "boom" = false := by
  decide

/-- Claim C2 (amended): on an operation failing on every invocation,
`withRetry` invokes the operation exactly `maxRetries` times and surfaces
the last error itself, unwrapped; `sendTransactionWithRetry` with policy
`retries` invokes the attempt body exactly `retries + 1` times and surfaces
the last transient error's message wrapped in a `BlockchainError` that does
not carry the attempt count. -/
theorem c2_amended_retry_exhaustion :
    (∀ (T : Type) (errs : Nat → String) (base m : Nat), 1 ≤ m →
      (withRetry (fun n => (.error (errs n) : Except String T)) base m).calls = m ∧
      (withRetry (fun n => (.error (errs n) : Except String T)) base m).result
        = .error (errs m)) ∧
    (∀ (env : Nat → AttemptEnv) (msgs : Nat → String) (Tt d : Nat)
        (j : Nat → Nat) (retries : Nat),
      (∀ a, (env a).blockhash = .error (msgs a)) →
      (sendTransactionWithRetry env Tt d j retries).attempts = retries + 1 ∧
      (sendTransactionWithRetry env Tt d j retries).result
        = .error (.blockchain
            ("Failed to send transaction after retries: " ++ msgs retries))) := by
  constructor
  · intro T errs base m hm
    have h := withRetryGo_allFail (T := T) errs base m hm 1 none
    rw [withRetry, h]
    refine ⟨rfl, ?_⟩
    have : 1 + m - 1 = m := by omega
    rw [this]
  · intro env msgs Tt d j retries henv
    have h := sendTxGo_allTransient msgs env henv Tt d j retries (retries + 1)
      (by omega) 0 (by omega)
    rw [sendTransactionWithRetry, h]
    exact ⟨rfl, rfl⟩

/-- Witness for C2 (amended) at a concrete always-failing operation and a
concrete always-transiently-failing submission environment. -/
def c2Env : Nat → AttemptEnv := fun _ =>
  ⟨.error "rpc down", .ok "sig", fun _ => ⟨.ok none, .ok 0⟩⟩

theorem c2_amended_retry_exhaustion_witness :
    (withRetry (fun _ => (.error "boom" : Except String Nat)) 1000 3).calls = 3 ∧
    (sendTransactionWithRetry c2Env 30 1000 (fun _ => 0) 3).attempts = 4 ∧
    (sendTransactionWithRetry c2Env 30 1000 (fun _ => 0) 3).result
      = .error (.blockchain "Failed to send transaction after retries: rpc down") := by
  have h1 := (c2_amended_retry_exhaustion.1 Nat (fun _ => "boom") 1000 3 (by norm_num)).1
  have h2 := c2_amended_retry_exhaustion.2 c2Env (fun _ => "rpc down") 30 1000
    (fun _ => 0) 3 (fun _ => rfl)
  exact ⟨h1, h2.1, h2.2⟩

/-- Claim C7 counterexample: the claim asserts every scheduled delay is
capped by `maxDelay` plus its jitter term, but no cap exists in the code:
for the delay `withRetryDelay 1000 n = 1000 * 2 ^ (n - 1)` of async.ts line
33 there is no pair (maxDelay, jitterFraction) bounding all attempts. -/
theorem c7_cex_no_delay_cap :
    ¬ ∃ (maxDelay jitterFraction : Nat), ∀ n,
      withRetryDelay 1000 n ≤ maxDelay + jitterFraction * maxDelay := by
  rintro ⟨M, jf, h⟩
  have h2 := h (M + jf * M + 1)
  unfold withRetryDelay at h2
  have h3 : M + jf * M + 1 - 1 = M + jf * M := by omega
  rw [h3] at h2
  have h4 : M + jf * M < 2 ^ (M + jf * M) := Nat.lt_two_pow _
  have h5 : 2 ^ (M + jf * M) ≤ 1000 * 2 ^ (M + jf * M) :=
    Nat.le_mul_of_pos_left _ (by norm_num)
  omega

/-- Claim C7 (amended): in an exhausting run, the delay before retrying
attempt `n` (1-indexed) of `withRetry` is exactly `baseDelay * 2^(n-1)` —
with no `maxDelay` cap and no jitter — and the delay after failed attempt
`a` (0-indexed) of `sendTransactionWithRetry` is `retryDelay * 2^a` plus a
jitter drawn from [0, 500), a fixed range rather than a fraction of the
delay; in particular each of its delays is below `retryDelay * 2^a + 500`. -/
theorem c7_amended_delay_formula :
    (∀ (T : Type) (errs : Nat → String) (base m : Nat), 1 ≤ m →
      (withRetry (fun n => (.error (errs n) : Except String T)) base m).delays
        = (List.range' 1 (m - 1)).map (fun a => withRetryDelay base a)) ∧
    (∀ (env : Nat → AttemptEnv) (msgs : Nat → String) (Tt d : Nat)
        (j : Nat → Nat) (retries : Nat),
      (∀ a, (env a).blockhash = .error (msgs a)) →
      (sendTransactionWithRetry env Tt d j retries).delays
        = (List.range retries).map (fun a => d * 2 ^ a + j a) ∧
      ((∀ a, j a < 500) →
        ∀ x ∈ (sendTransactionWithRetry env Tt d j retries).delays,
          ∃ a, a < retries ∧ x = d * 2 ^ a + j a ∧ x < d * 2 ^ a + 500)) := by
  constructor
  · intro T errs base m hm
    have h := withRetryGo_allFail (T := T) errs base m hm 1 none
    rw [withRetry, h]
  · intro env msgs Tt d j retries henv
    have h := sendTxGo_allTransient msgs env henv Tt d j retries (retries + 1)
      (by omega) 0 (by omega)
    rw [sendTransactionWithRetry, h]
    constructor
    · simp [List.range_eq_range']
    · intro hj x hx
      simp only [List.mem_map, List.mem_range'] at hx
      obtain ⟨a, ⟨ha, rfl⟩⟩ := hx
      exact ⟨a, by omega, rfl, by have := hj a; omega⟩

/-- Witness for C7 (amended) at concrete runs: `withRetry` with base 1000 and
3 attempts sleeps [1000, 2000]; the always-transient submission with
`retryDelay = 100`, zero jitter and 3 retries sleeps [100, 200, 400]. -/
theorem c7_amended_delay_formula_witness :
    (withRetry (fun _ => (.error "boom" : Except String Nat)) 1000 3).delays
      = [1000, 2000] ∧
    (sendTransactionWithRetry c2Env 30 100 (fun _ => 0) 3).delays
      = [100, 200, 400] := by
  have h1 := c7_amended_delay_formula.1 Nat (fun _ => "boom") 1000 3 (by norm_num)
  have h2 := (c7_amended_delay_formula.2 c2Env (fun _ => "rpc down") 30 100
    (fun _ => 0) 3 (fun _ => rfl)).1
  exact ⟨h1.trans (by decide), h2.trans (by decide)⟩

/-- Claim C3 counterexample: first attempt is sent but never confirms within
the wall-clock window (poll always reports no status), and the outer budget
allows 2 further retries; contrary to the claim, the submitter does not loop
back for a fresh blockhash and a new SENT attempt — it makes exactly 1
attempt and rethrows the `TransactionTimeoutError` as terminal. -/
def c3Env : Nat → AttemptEnv := fun _ =>
  ⟨.ok ("bh1", 100), .ok "sig1", fun _ => ⟨.ok none, .ok 0⟩⟩

theorem c3_cex_expired_not_retried :
    (sendTransactionWithRetry c3Env 3 1000 (fun _ => 0) 2).attempts = 1 ∧
    (sendTransactionWithRetry c3Env 3 1000 (fun _ => 0) 2).result
      = .error (.transactionTimeout "Transaction not confirmed within timeout") ∧
    (sendTransactionWithRetry c3Env 3 1000 (fun _ => 0) 2).events
      = [.sent "sig1", .failedEv "sig1"] := by
  refine ⟨by decide, by decide, by decide⟩

/-- Claim C3 (amended): a submission attempt that ends with EXPIRED (the
confirmation wall-clock timeout elapses; the block-height expiry check of
waitForConfirmation is swallowed by its own catch and never surfaces) is
treated as fatal at the outer level exactly like FAILED: the
`TransactionTimeoutError` is rethrown immediately, the submitter makes
exactly 1 attempt regardless of remaining retry budget, and no new SENT
attempt occurs; only errors thrown before or during the send (network
transients) consume retry budget. -/
theorem c3_amended_expired_fatal (env : Nat → AttemptEnv) (Tt d : Nat)
    (j : Nat → Nat) (retries : Nat) (bh sig : String) (lv : Nat) (m : String)
    (h1 : (env 0).blockhash = .ok (bh, lv))
    (h2 : (env 0).sendRaw = .ok sig)
    (h3 : waitForConfirmation (env 0).poll lv Tt = .expiredTimeout m) :
    (sendTransactionWithRetry env Tt d j retries).attempts = 1 ∧
    (sendTransactionWithRetry env Tt d j retries).result
      = .error (.transactionTimeout m) ∧
    (sendTransactionWithRetry env Tt d j retries).events
      = [.sent sig, .failedEv sig] := by
  have hso : attemptOnce Tt (env 0) = (.error (.transactionTimeout m),
      [.sent sig, .failedEv sig]) := by
    simp [attemptOnce, h1, h2, h3]
  rw [sendTransactionWithRetry]
  simp [sendTxGo, hso]

/-- Witness for C3 (amended): the concrete never-confirming environment with
a 3-tick window and 5 retries of budget. -/
theorem c3_amended_expired_fatal_witness :
    (sendTransactionWithRetry c3Env 3 1000 (fun _ => 0) 5).attempts = 1 ∧
    (sendTransactionWithRetry c3Env 3 1000 (fun _ => 0) 5).result
      = .error (.transactionTimeout "Transaction not confirmed within timeout") ∧
    (sendTransactionWithRetry c3Env 3 1000 (fun _ => 0) 5).events
      = [.sent "sig1", .failedEv "sig1"] := by
  exact c3_amended_expired_fatal c3Env 3 1000 (fun _ => 0) 5 "bh1" "sig1" 100
    "Transaction not confirmed within timeout" rfl rfl (by decide)

/-- Claim C4: when the ledger reports an explicit transaction error on the
first attempt (the status poll returns a non-null `err`), the submitter
makes exactly 1 attempt — the `TransactionFailedError` short-circuits past
the outer retry loop regardless of the configured budget — and the emitted
events are SENT then FAILED. -/
theorem c4_ledger_rejected_single_attempt (env : Nat → AttemptEnv) (Tt d : Nat)
    (j : Nat → Nat) (retries : Nat) (bh sig : String) (lv : Nat) (m : String)
    (h1 : (env 0).blockhash = .ok (bh, lv))
    (h2 : (env 0).sendRaw = .ok sig)
    (h3 : waitForConfirmation (env 0).poll lv Tt = .failedLedger m) :
    (sendTransactionWithRetry env Tt d j retries).attempts = 1 ∧
    (sendTransactionWithRetry env Tt d j retries).result
      = .error (.transactionFailed m) ∧
    (sendTransactionWithRetry env Tt d j retries).events
      = [.sent sig, .failedEv sig] := by
  have hso : attemptOnce Tt (env 0) = (.error (.transactionFailed m),
      [.sent sig, .failedEv sig]) := by
    simp [attemptOnce, h1, h2, h3]
  rw [sendTransactionWithRetry]
  simp [sendTxGo, hso]

/-- Witness for C4: a ledger-rejected first attempt (the poll reports an
InstructionError) with a budget of 5 retries still makes exactly 1 attempt. -/
def c4Env : Nat → AttemptEnv := fun _ =>
  ⟨.ok ("bh1", 100), .ok "sig1",
    fun _ => ⟨.ok (some ⟨some "InstructionError", none⟩), .ok 0⟩⟩

theorem c4_ledger_rejected_single_attempt_witness :
    (sendTransactionWithRetry c4Env 30 1000 (fun _ => 0) 5).attempts = 1 ∧
    (sendTransactionWithRetry c4Env 30 1000 (fun _ => 0) 5).result
      = .error (.transactionFailed "Transaction failed: InstructionError") ∧
    (sendTransactionWithRetry c4Env 30 1000 (fun _ => 0) 5).events
      = [.sent "sig1", .failedEv "sig1"] := by
  exact c4_ledger_rejected_single_attempt c4Env 30 1000 (fun _ => 0) 5 "bh1"
    "sig1" 100 "Transaction failed: InstructionError" rfl rfl (by decide)

/-- Holds exactly of SENT events. -/
def isSentEv : TxEvent → Bool
  | .sent _ => true
  | _ => false

/-- Claim C8 counterexample: with a send that always fails transiently
("net down") and an outer budget of 3 retries (the loop body runs 4 times),
the caller observes zero SENT events — not the claimed 3 — and the terminal
failure is a thrown wrapped `BlockchainError`, not an emitted event. -/
def c8Env : Nat → AttemptEnv := fun _ =>
  ⟨.ok ("bh1", 100), .error "net down", fun _ => ⟨.ok none, .ok 0⟩⟩

theorem c8_cex_no_sent_events :
    ((sendTransactionWithRetry c8Env 30 100 (fun _ => 0) 3).events.filter
      isSentEv).length = 0 ∧
    (sendTransactionWithRetry c8Env 30 100 (fun _ => 0) 3).events = [] := by
  refine ⟨by decide, by decide⟩

/-- Claim C8 (amended): the lifecycle events of a single logical submission
always form a sequence of SENT-then-terminal pairs (each CONFIRMED or
FAILED event is immediately preceded by the SENT event of the same
signature, so no terminal event precedes its SENT); but a submission whose
sends all fail transiently emits no events at all — in the
always-transiently-failing scenario the caller observes zero SENT events and
the failure surfaces as a thrown `BlockchainError` wrapping the last
message, not as a terminal event. -/
theorem c8_amended_event_order :
    (∀ (env : Nat → AttemptEnv) (Tt d : Nat) (j : Nat → Nat) (retries : Nat),
      okTrace (sendTransactionWithRetry env Tt d j retries).events = true) ∧
    ((sendTransactionWithRetry c8Env 30 100 (fun _ => 0) 3).events = [] ∧
     (sendTransactionWithRetry c8Env 30 100 (fun _ => 0) 3).result
       = .error (.blockchain "Failed to send transaction after retries: net down")) := by
  refine ⟨?_, by decide, by decide⟩
  intro env Tt d j retries
  rw [sendTransactionWithRetry]
  exact okTrace_sendTxGo env Tt d j retries (retries + 1) 0

/-- Claim C5: `verifyAttestation` distinguishes absence from forgery — an
absent account yields the "not found" reason, while an existing account with
an unexpected owner yields the "wrong owner" reason, which is a different
string from the "not found" reason. -/
theorem c5_not_found_vs_wrong_owner (programId walletPk : String) (now : Nat)
    (parsePub : String → Option String)
    (getAccountInfo : String → Except String (Option AccountInfo))
    (addr pk : String) (hne : addr ≠ "") (hp : parsePub addr = some pk) :
    (getAccountInfo pk = .ok none →
      verifyAttestation programId walletPk now parsePub getAccountInfo addr
        = ⟨false, none, some "Attestation account not found"⟩) ∧
    (∀ acct, getAccountInfo pk = .ok (some acct) → acct.owner ≠ programId →
      verifyAttestation programId walletPk now parsePub getAccountInfo addr
        = ⟨false, none, some "Attestation account is not owned by expected program"⟩ ∧
      ("Attestation account is not owned by expected program" : String)
        ≠ "Attestation account not found") := by
  constructor
  · intro hmiss
    simp [verifyAttestation, hne, hp, hmiss]
  · intro acct hsome howner
    refine ⟨?_, by decide⟩
    simp [verifyAttestation, hne, hp, hsome, howner]

/-- Witness for C5: a missing account is reported "not found"; an account
owned by another program is reported "wrong owner". -/
def c5Fetch : String → Except String (Option AccountInfo) := fun a =>
  if a = "foreign" then .ok (some ⟨"otherProgram", none⟩) else .ok none

theorem c5_not_found_vs_wrong_owner_witness :
    verifyAttestation "prog" "wallet" 0 some c5Fetch "missing"
      = ⟨false, none, some "Attestation account not found"⟩ ∧
    verifyAttestation "prog" "wallet" 0 some c5Fetch "foreign"
      = ⟨false, none, some "Attestation account is not owned by expected program"⟩ := by
  refine ⟨(c5_not_found_vs_wrong_owner "prog" "wallet" 0 some c5Fetch
    "missing" "missing" (by decide) rfl).1 (by decide), ?_⟩
  exact ((c5_not_found_vs_wrong_owner "prog" "wallet" 0 some c5Fetch
    "foreign" "foreign" (by decide) rfl).2 ⟨"otherProgram", none⟩ (by decide)
    (by decide)).1

/-- The merged result list of the chunk loop is the per-address results in
input order, independent of the chunking. -/
theorem batchVerifyGo_flat (verify : String → Except String VerifyResult) :
    ∀ (fuel : Nat) (l : List String), l.length ≤ fuel →
      (batchVerifyGo verify fuel l).1 = l.map (handleItem verify) := by
  intro fuel
  induction fuel with
  | zero =>
    intro l hl
    have : l = [] := List.eq_nil_of_length_eq_zero (by omega)
    subst this
    simp [batchVerifyGo]
  | succ fuel ih =>
    intro l hl
    cases l with
    | nil => simp [batchVerifyGo]
    | cons a t =>
      have hrest : ((a :: t).drop 10).length ≤ fuel := by
        simp only [List.length_drop, List.length_cons]
        simp only [List.length_cons] at hl
        omega
      simp only [batchVerifyGo, ih _ hrest]
      rw [← List.map_append, List.take_append_drop]

/-- The number of between-chunk pauses is one fewer than the number of
10-element chunks. -/
theorem batchVerifyGo_pauses (verify : String → Except String VerifyResult) :
    ∀ (fuel : Nat) (l : List String), l.length ≤ fuel →
      (batchVerifyGo verify fuel l).2 = (l.length - 1) / 10 := by
  intro fuel
  induction fuel with
  | zero =>
    intro l hl
    have : l = [] := List.eq_nil_of_length_eq_zero (by omega)
    subst this
    simp [batchVerifyGo]
  | succ fuel ih =>
    intro l hl
    cases l with
    | nil => simp [batchVerifyGo]
    | cons a t =>
      have hrest : ((a :: t).drop 10).length ≤ fuel := by
        simp only [List.length_drop, List.length_cons]
        simp only [List.length_cons] at hl
        omega
      simp only [batchVerifyGo, ih _ hrest]
      by_cases hlen : t.length + 1 ≤ 10
      · have hemp : ((a :: t).drop 10) = [] :=
          List.drop_eq_nil_of_le (by simp only [List.length_cons]; omega)
        have h1 : t.length / 10 = 0 := Nat.div_eq_of_lt (by omega)
        rw [hemp]
        simp [h1]
      · have hemp : ((a :: t).drop 10).isEmpty = false := by
          rw [List.isEmpty_eq_false, ne_eq, List.drop_eq_nil_iff]
          simp only [List.length_cons]
          omega
        rw [if_neg (by rw [hemp]; exact Bool.false_ne_true)]
        simp only [List.length_drop, List.length_cons]
        have e1 : t.length + 1 - 10 - 1 = t.length + 1 - 11 := by omega
        have e2 : t.length + 1 - 1 = (t.length + 1 - 11) + 10 := by omega
        rw [e1, e2, Nat.add_div_right _ (by norm_num)]
        omega

/-- Looking up any input address in the per-address result map yields that
address's own guarded result. -/
theorem lookup_map_handleItem (verify : String → Except String VerifyResult) :
    ∀ (l : List String) (a : String), a ∈ l →
      (l.map (handleItem verify)).lookup a = some (handleItem verify a).2 := by
  intro l
  induction l with
  | nil => intro a ha; cases ha
  | cons b t ih =>
    intro a ha
    have hpair : handleItem verify b = (b, (handleItem verify b).2) := by
      unfold handleItem
      cases verify b <;> rfl
    rw [List.map_cons, hpair, List.lookup_cons]
    by_cases hab : a = b
    · subst hab
      simp
    · have hat : a ∈ t := by
        cases ha with
        | head => exact absurd rfl hab
        | tail _ h => exact h
      have hne : (a == b) = false := beq_eq_false_iff_ne.mpr hab
      rw [hne]
      exact ih a hat

/-- Claim C6: `batchVerifyAttestations` partitions the input into chunks of
10 with a pause between consecutive chunks (the pause count is one fewer
than the chunk count), and its result map contains, for every input address,
exactly that address's own guarded verification result: an exception raised
for one address is captured inline as an invalid result for that address
alone, each address's entry depends only on its own verification, and the
batch call itself is a total function — no exception propagates. -/
theorem c6_batch_isolation (verify : String → Except String VerifyResult)
    (addrs : List String) (a : String) (ha : a ∈ addrs) :
    (batchVerifyAttestations verify addrs).1.lookup a
      = some (match verify a with
              | .ok r => r
              | .error m => ⟨false, none, some m⟩) ∧
    (batchVerifyAttestations verify addrs).2 = (addrs.length - 1) / 10 := by
  constructor
  · rw [batchVerifyAttestations, batchVerifyGo_flat verify addrs.length addrs (by omega)]
    rw [lookup_map_handleItem verify addrs a ha]
    unfold handleItem
    cases verify a <;> rfl
  · exact batchVerifyGo_pauses verify addrs.length addrs (by omega)

/-- Witness for C6: a two-address batch where verifying the second address
throws; the first is verified normally, the thrown error is captured inline
for the second, and no pause is inserted. -/
def c6Verify : String → Except String VerifyResult := fun x =>
  if x = "bad" then .error "boom" else .ok ⟨true, none, none⟩

theorem c6_batch_isolation_witness :
    (batchVerifyAttestations c6Verify ["good", "bad"]).1.lookup "bad"
      = some ⟨false, none, some "boom"⟩ ∧
    (batchVerifyAttestations c6Verify ["good", "bad"]).1.lookup "good"
      = some ⟨true, none, none⟩ ∧
    (batchVerifyAttestations c6Verify ["good", "bad"]).2 = 0 := by
  have hbad := c6_batch_isolation c6Verify ["good", "bad"] "bad" (by decide)
  have hgood := c6_batch_isolation c6Verify ["good", "bad"] "good" (by decide)
  exact ⟨hbad.1.trans (by decide), hgood.1.trans (by decide), hbad.2⟩

/-- Claim C9: when the caller's token bucket is exhausted (the limiter
reports a negative remaining count) or the rate-limit check itself fails
(the limiter call rejects), `checkRateLimit` denies, and both rate-limited
operations — address generation and address verification — return
immediately with the rate-limit error result, regardless of cache contents,
salt configuration or the NIN supplied. -/
theorem c9_rate_limit_fail_closed (fp : List Nat → String)
    (sha : String → List Nat) (ninSalt : Option String)
    (limiterResp : Except String Int)
    (vcache : String → Option NINValidationResult)
    (acache : String → Option NINAddressResult)
    (vfycache : String → Option NINVerificationResult)
    (nin address countryCode : String)
    (h : checkRateLimit limiterResp = false) :
    ninServiceGenerateAddress fp sha ninSalt limiterResp vcache acache nin countryCode
      = ⟨false, none, some "Rate limit exceeded. Please try again later.", none, false⟩ ∧
    ninServiceVerifyAddress fp sha ninSalt limiterResp vcache vfycache nin address countryCode
      = ⟨false, some "Rate limit exceeded. Please try again later.", some countryCode, false⟩ ∧
    (∀ m, checkRateLimit (.error m) = false) ∧
    (∀ r : Int, r < 0 → checkRateLimit (.ok r) = false) := by
  refine ⟨?_, ?_, fun m => rfl, ?_⟩
  · simp [ninServiceGenerateAddress, h]
  · simp [ninServiceVerifyAddress, h]
  · intro r hr
    simp [checkRateLimit]
    omega

/-- Witness for C9: an exhausted bucket (remaining count -1) denies both
operations immediately. -/
theorem c9_rate_limit_fail_closed_witness :
    ninServiceGenerateAddress c1Fp c1Sha (some "pepper") (.ok (-1))
      (fun _ => none) (fun _ => none) "7001234567" "NG"
      = ⟨false, none, some "Rate limit exceeded. Please try again later.", none, false⟩ ∧
    ninServiceVerifyAddress c1Fp c1Sha (some "pepper") (.ok (-1))
      (fun _ => none) (fun _ => none) "7001234567" "addr" "NG"
      = ⟨false, some "Rate limit exceeded. Please try again later.", some "NG", false⟩ := by
  have h := c9_rate_limit_fail_closed c1Fp c1Sha (some "pepper") (.ok (-1))
    (fun _ => none) (fun _ => none) (fun _ => none) "7001234567" "addr" "NG"
    (by decide)
  exact ⟨h.1, h.2.1⟩

/-- Claim C10: `NINService.hashNIN` produces the same result for any two
values of the `saltRounds` parameter — the underlying one-parameter hash
function drops the extra argument at the call boundary, and neither the
validation step nor the cache key involves `saltRounds` — so the output
depends only on the NIN, the country code, the caches and the environment
salt. -/
theorem c10_hash_ignores_salt_rounds (sha256hex : String → String)
    (ninSalt : Option String)
    (vcache : String → Option NINValidationResult)
    (hcache : String → Option NINHashResult)
    (nin : String) (r1 r2 : Nat) (countryCode : String) :
    ninServiceHashNIN sha256hex ninSalt vcache hcache nin r1 countryCode
      = ninServiceHashNIN sha256hex ninSalt vcache hcache nin r2 countryCode := rfl

